import Mathlib

/-!
Shallow embedding of the connection-handling core of the `rust-proxy` repository
(`src/main.rs`, `src/config.rs`, `src/handlers.rs`), together with theorems that
settle the spec claims about it.

Conventions of the embedding:
* bytes are `Nat` values below 256; byte buffers are `List Nat`;
* the single buffered read of `handle_http` is represented by the list of bytes
  it returned (`none` models a failed read);
* a Rust panic (out-of-range slice index) is an explicit `crashed` result;
* async I/O steps that can fail (the `write_all` calls of
  `write_not_found_file`) are driven by an oracle `ok : Nat → Bool` giving the
  success of each step in program order.
-/

namespace RustProxy

/-- ASCII bytes of a (pure-ASCII) string literal, for readable byte buffers. -/
def asciiBytes (s : String) : List Nat := s.data.map Char.toNat

/-- src/handlers.rs: `const BUFFER_LEN : usize = 8192`. -/
def BUFFER_LEN : Nat := 8192

/-- The 6 bytes of `b"Host: "` compared against `&line[..6]` in `handle_http`. -/
def hostMarker : List Nat := asciiBytes "Host: "

/-- The 4 bytes of `b"GET "` compared against `&line[..4]` (certbot feature). -/
def getMarker : List Nat := asciiBytes "GET "

/-- src/handlers.rs: `CERTBOT_PATH_PREFIX = b"/.well-known/acme-challenge/"`. -/
def certbotPathMarker : List Nat := asciiBytes "/.well-known/acme-challenge/"

/-- src/handlers.rs `handle_http`, Host branch: find the first `b':'` with
`find_map` and truncate the hostname just before it. -/
def truncAtColon (hostname : List Nat) : List Nat :=
  match hostname.findIdx? (fun b => b == 58) with
  | some pos => hostname.take pos
  | none => hostname

/-- src/handlers.rs `handle_http`, certbot branch: the reversed needle
`b"/PTTH "` used to strip a trailing `" HTTP/x"` back-to-front. -/
def httpNeedle : List Nat := asciiBytes "/PTTH "

/-- The back-to-front needle scan of the certbot branch: `k` is one past the
current index `i = k - 1` into `path`, `ni` is `needle_i`.  On a full match the
path is truncated at the position of the last matched byte; a mismatch resets
`needle_i` to 0 without re-examining the current byte; falling off the front
leaves the path unchanged. -/
def stripHttpGo (path : List Nat) : Nat → Nat → List Nat
  | 0, _ => path
  | k + 1, ni =>
    if path.getD k 0 = httpNeedle.getD ni 0 then
      if ni + 1 = httpNeedle.length then path.take k
      else stripHttpGo path k (ni + 1)
    else stripHttpGo path k 0

/-- src/handlers.rs `handle_http`, certbot branch: strip a trailing
`" HTTP/x"`-style suffix from the request path, scanning back-to-front. -/
def stripHttpSuffix (path : List Nat) : List Nat :=
  stripHttpGo path path.length 0

/-- The certbot-path test of `handle_http`:
`path.len() >= CERTBOT_PATH_PREFIX.len() && &path[..len] == CERTBOT_PATH_PREFIX`. -/
def isCertbotPath (path : List Nat) : Prop :=
  certbotPathMarker.length ≤ path.length ∧
    path.take certbotPathMarker.length = certbotPathMarker

instance (path : List Nat) : Decidable (isCertbotPath path) :=
  inferInstanceAs (Decidable (_ ∧ _))

/-- Result of the header-scanning loop of `handle_http`. -/
inductive ScanResult where
  /-- The loop evaluated `&line[..6]` on a line shorter than 6 bytes: in the
  Rust source this is an out-of-range slice index, i.e. a panic. -/
  | crashed : ScanResult
  /-- `host = Some(hostname)` was set (port already truncated) and the loop
  was left with `break`. -/
  | host (hostname : List Nat) : ScanResult
  /-- The certbot branch matched and `handle_http` returned after redirecting
  the buffered bytes to the certbot hostname. -/
  | certbot : ScanResult
  /-- The loop ran off the end of the buffer with `host` still `None`. -/
  | noHost : ScanResult
deriving DecidableEq, Repr

/-- The `for (i, b) in buf[..buf_len].iter().enumerate()` loop of
`handle_http`.  `buf` is the whole read buffer (used for the line slices),
`rem` is the remaining iteration list (`buf.drop i`), `i` the current index,
`ptr` the start of the current line and `cr` the `carriage_return` flag.
`cb` tells whether the `certbot` feature is compiled in. -/
def scanLoop (cb : Bool) (buf : List Nat) : List Nat → Nat → Nat → Bool → ScanResult
  | [], _, _, _ => .noHost
  | b :: rem, i, ptr, cr =>
    if cr = false ∧ b = 13 then
      scanLoop cb buf rem (i + 1) ptr true
    else if cr = true ∧ b = 10 then
      -- a full line `&buf[ptr..i-1]`
      let line : List Nat := (buf.take (i - 1)).drop ptr
      if line.length < 6 then .crashed
      else if line.take 6 = hostMarker then
        .host (truncAtColon (line.drop 6))
      else if cb then
        if line.take 4 = getMarker then
          if isCertbotPath (stripHttpSuffix (line.drop 4)) then .certbot
          else scanLoop cb buf rem (i + 1) (i + 1) false
        else scanLoop cb buf rem (i + 1) (i + 1) false
      else scanLoop cb buf rem (i + 1) (i + 1) false
    else scanLoop cb buf rem (i + 1) ptr false

/-- The whole header scan of `handle_http` over the bytes actually read. -/
def scanHeaders (cb : Bool) (buf : List Nat) : ScanResult :=
  scanLoop cb buf buf 0 0 false

/-- Rust `std::str::from_utf8` on the fuel-driven byte list `l` (the fuel is
the list length, enough for one byte per step): strict UTF-8 validation and
decoding exactly as in Rust core (RFC 3629 ranges, overlongs, surrogates and
values above 0x10FFFF rejected via the second-byte ranges). -/
def utf8DecodeAux : Nat → List Nat → Option (List Char)
  | _, [] => some []
  | 0, _ :: _ => none
  | fuel + 1, b0 :: r0 =>
    if b0 < 128 then
      (utf8DecodeAux fuel r0).map (fun cs => Char.ofNat b0 :: cs)
    else
      match r0 with
      | [] => none
      | b1 :: r1 =>
        if 194 ≤ b0 ∧ b0 ≤ 223 then
          if 128 ≤ b1 ∧ b1 ≤ 191 then
            (utf8DecodeAux fuel r1).map
              (fun cs => Char.ofNat ((b0 % 32) * 64 + b1 % 64) :: cs)
          else none
        else if 224 ≤ b0 ∧ b0 ≤ 239 then
          if (b0 = 224 ∧ 160 ≤ b1 ∧ b1 ≤ 191)
              ∨ (225 ≤ b0 ∧ b0 ≤ 236 ∧ 128 ≤ b1 ∧ b1 ≤ 191)
              ∨ (b0 = 237 ∧ 128 ≤ b1 ∧ b1 ≤ 159)
              ∨ (238 ≤ b0 ∧ 128 ≤ b1 ∧ b1 ≤ 191) then
            match r1 with
            | [] => none
            | b2 :: r2 =>
              if 128 ≤ b2 ∧ b2 ≤ 191 then
                (utf8DecodeAux fuel r2).map
                  (fun cs =>
                    Char.ofNat ((b0 % 16) * 4096 + (b1 % 64) * 64 + b2 % 64) :: cs)
              else none
          else none
        else if 240 ≤ b0 ∧ b0 ≤ 244 then
          if (b0 = 240 ∧ 144 ≤ b1 ∧ b1 ≤ 191)
              ∨ (241 ≤ b0 ∧ b0 ≤ 243 ∧ 128 ≤ b1 ∧ b1 ≤ 191)
              ∨ (b0 = 244 ∧ 128 ≤ b1 ∧ b1 ≤ 143) then
            match r1 with
            | [] => none
            | b2 :: r2 =>
              if 128 ≤ b2 ∧ b2 ≤ 191 then
                match r2 with
                | [] => none
                | b3 :: r3 =>
                  if 128 ≤ b3 ∧ b3 ≤ 191 then
                    (utf8DecodeAux fuel r3).map
                      (fun cs =>
                        Char.ofNat
                          ((b0 % 8) * 262144 + (b1 % 64) * 4096
                            + (b2 % 64) * 64 + b3 % 64) :: cs)
                  else none
              else none
          else none
        else none

/-- Rust `std::str::from_utf8` over a byte list. -/
def utf8Decode (l : List Nat) : Option (List Char) :=
  utf8DecodeAux l.length l

/-- std::net::IpAddr: either a V4 or a V6 address. -/
inductive IpAddr where
  | v4 (a b c d : Nat) : IpAddr
  | v6 (segs : List Nat) : IpAddr
deriving DecidableEq, Repr

/-- std::net::SocketAddr: an IP address plus a port. -/
structure SocketAddr where
  ip : IpAddr
  port : Nat
deriving DecidableEq, Repr

/-- `SocketAddr::is_ipv6`. -/
def SocketAddr.is_ipv6 (a : SocketAddr) : Bool :=
  match a.ip with
  | .v6 _ => true
  | .v4 _ _ _ _ => false

/-- `SocketAddr::is_ipv4`. -/
def SocketAddr.is_ipv4 (a : SocketAddr) : Bool :=
  match a.ip with
  | .v4 _ _ _ _ => true
  | .v6 _ => false

/-- src/handlers.rs `redirect`, lines 136-156: fold the resolved candidate
addresses into `target_ip`, exactly as the `for addr in addrs` loop does:
the first candidate is taken unconditionally; afterwards, whenever the
current choice `prev` is IPv6 and the new candidate is IPv4, the IPv4
candidate replaces it. -/
def pickTarget (addrs : List SocketAddr) : Option SocketAddr :=
  addrs.foldl
    (fun targetIp addr =>
      match targetIp with
      | some prev => if prev.is_ipv6 ∧ addr.is_ipv4 then some addr else some prev
      | none => some addr)
    none

/-- src/config.rs `Config` (the fields the core reads; the `certs` path map
and the `not_found_file` path only feed the external loaders). -/
structure Config where
  /-- The address on which to bind the server. -/
  address : IpAddr
  /-- The ports on which we create openings. -/
  ports : List Nat
  /-- hostname -> other hostname maps (`HashMap<String, String>`; lookups are
  exact string equality). -/
  hostnames : List (String × String)
  /-- The hostname on which any certbot server might live (certbot feature). -/
  certbot_hostname : String
deriving Repr

/-- The observable outcome of `handle_http` for one connection. -/
inductive HttpOutcome where
  /-- `socket.read` returned `Err`: debug-log and return. -/
  | abortReadError : HttpOutcome
  /-- zero bytes read: the client closed before sending anything. -/
  | abortEmpty : HttpOutcome
  /-- the scan panicked on `&line[..6]` (line shorter than 6 bytes). -/
  | crashed : HttpOutcome
  /-- certbot feature: the request was redirected, with the whole buffered
  read, to `config.certbot_hostname`, bypassing the hostname map. -/
  | certbotRedirect (target : String) (buffered : List Nat) : HttpOutcome
  /-- no Host line was found in the single buffered read: abort silently. -/
  | abortNoHost : HttpOutcome
  /-- the extracted hostname bytes were not valid UTF-8: abort silently. -/
  | abortBadUtf8 : HttpOutcome
  /-- the hostname is not a key of `config.hostnames`: the not-found
  responder is invoked on the client stream. -/
  | notFound : HttpOutcome
  /-- the hostname mapped to `target`: the connection is handed to the
  redirector together with the buffered bytes. -/
  | redirect (target : String) (buffered : List Nat) : HttpOutcome
deriving DecidableEq, Repr

/-- src/handlers.rs `handle_http`: single buffered read (`readResult`,
`none` = read error), zero-byte guard, header scan, UTF-8 decoding of the
extracted hostname, exact `HashMap` lookup, and the resulting routing
decision. -/
def handleHttp (cb : Bool) (cfg : Config) (readResult : Option (List Nat)) :
    HttpOutcome :=
  match readResult with
  | none => .abortReadError
  | some buf =>
    if buf.length = 0 then .abortEmpty
    else
      match scanHeaders cb buf with
      | .crashed => .crashed
      | .certbot => .certbotRedirect cfg.certbot_hostname buf
      | .noHost => .abortNoHost
      | .host h =>
        match utf8Decode h with
        | none => .abortBadUtf8
        | some cs =>
          match cfg.hostnames.lookup (String.mk cs) with
          | none => .notFound
          | some target => .redirect target buf

/-- src/handlers.rs `handle_https`: its body is empty.  It performs no TLS
handshake, reads no bytes from the client and writes none back, whatever the
client sends; it produces no routing outcome at all. -/
def handleHttps (_cfg : Config) (_clientBytes : List Nat) : Option HttpOutcome :=
  none

/-- A CRLF-terminated line the scanner of `handle_http` passes over without
acting on it: no CR inside (so it is one line), at least 6 bytes (so the
`&line[..6]` test does not panic), not a `Host: ` line, and not a certbot
`GET ` hit under the active feature setting. -/
def skippedLine (cb : Bool) (p : List Nat) : Prop :=
  13 ∉ p ∧ ¬ p.length < 6 ∧ p.take 6 ≠ hostMarker ∧
    ¬(cb = true ∧ p.take 4 = getMarker ∧ isCertbotPath (stripHttpSuffix (p.drop 4)))

instance (cb : Bool) (p : List Nat) : Decidable (skippedLine cb p) :=
  inferInstanceAs (Decidable (_ ∧ _ ∧ _ ∧ _))

/-- A buffer made of CRLF-terminated header lines followed by a tail. -/
def joinLines (lines : List (List Nat)) (tail : List Nat) : List Nat :=
  lines.foldr (fun line acc => line ++ 13 :: 10 :: acc) tail

/-- src/handlers.rs `write_not_found_file`: the successive `write_all`
payloads, in program order.  `dateLine` stands for the formatted
`Date: ... GMT\r\n` header produced from `Utc::now()` and `serverLine` for the
fixed `Server: <CARGO_PKG_NAME>/<CARGO_PKG_VERSION>\r\n` header; both are
parameters because their contents come from the clock and the build metadata. -/
def notFoundChunks (dateLine serverLine payload : List Nat) : List (List Nat) :=
  [asciiBytes "HTTP/1.1 200 OK\r\n",
   dateLine,
   serverLine,
   asciiBytes "Content-Length: ",
   asciiBytes (Nat.repr payload.length),
   asciiBytes "\r\n",
   asciiBytes "Content-Type: text/html\r\n",
   asciiBytes "Connection: Closed\r\n\r\n",
   payload]

/-- Run a sequence of `write_all` steps against the success oracle `ok`
(step numbers start at `k`): each chunk is written once if its step
succeeds; the first failing step returns immediately, dropping everything
after it.  When every write succeeded, the final step `k + length` is the
`flush`; its success is reported as the second component and affects no
bytes. -/
def writeSteps : List (List Nat) → (Nat → Bool) → Nat → List Nat × Bool
  | [], ok, k => ([], ok k)
  | c :: cs, ok, k =>
    if ok k then
      let r := writeSteps cs ok (k + 1)
      (c ++ r.1, r.2)
    else ([], false)

/-- src/handlers.rs `write_not_found_file`: the bytes put on the client
socket and whether the final `flush` succeeded, given the per-step success
oracle (steps 0-8 are the `write_all` calls, step 9 the `flush`). -/
def writeNotFoundFile (dateLine serverLine payload : List Nat)
    (ok : Nat → Bool) : List Nat × Bool :=
  writeSteps (notFoundChunks dateLine serverLine payload) ok 0

/-- The full response when every step succeeds, as one byte string. -/
def notFoundResponseBytes (dateLine serverLine payload : List Nat) : List Nat :=
  (notFoundChunks dateLine serverLine payload).flatten

/-- The proxy-generated response bytes a client sees for a given routing
outcome of `handle_http`: only the not-found path writes a response; every
abort path returns without touching the socket, and the redirect paths write
client bytes to the backend, not a response to the client (the later
bidirectional copy phase only relays backend bytes). -/
def clientResponseBytes (dateLine serverLine payload : List Nat)
    (ok : Nat → Bool) : HttpOutcome → List Nat
  | .notFound => (writeNotFoundFile dateLine serverLine payload ok).1
  | _ => []

/-- src/config.rs `CertificateResolver::resolve`: `client_hello.server_name()?`
then a pure lookup in the startup-built certificate store (`certstore.get(name)?`,
cloned).  The stored `CertifiedKey` material is opaque to the lookup and is
modelled by an identifier. -/
def resolveCert (certstore : List (String × Nat)) (serverName : Option String) :
    Option Nat :=
  match serverName with
  | none => none
  | some name => certstore.lookup name

/-- The `config` fields src/main.rs dereferences to bind its listeners:
`config.http_port` and, under the https feature, `config.https_port`.
`Config` in src/config.rs declares no such fields (it declares
`ports: Vec<u16>` instead), so main.rs does not compile against it; this
structure records main.rs's own view of the configuration. -/
structure MainConfigView where
  address : IpAddr
  http_port : Nat
  https_port : Nat
deriving DecidableEq, Repr

/-- src/main.rs: the socket addresses the supervisor binds, in order: one
HTTP listener at `(config.address, config.http_port)` and, with the https
feature, one HTTPS listener at `(config.address, config.https_port)`.
No other listener is ever bound; in particular `ports` is never iterated. -/
def mainBoundAddrs (https : Bool) (c : MainConfigView) : List SocketAddr :=
  if https then [⟨c.address, c.http_port⟩, ⟨c.address, c.https_port⟩]
  else [⟨c.address, c.http_port⟩]

/-- The terminal events of src/main.rs's `main`. -/
inductive MainTermination where
  /-- `Config::from_path` failed. -/
  | configLoadFailed : MainTermination
  /-- `load_not_found_file` failed. -/
  | notFoundLoadFailed : MainTermination
  /-- `load_certstore` failed (https feature). -/
  | certstoreLoadFailed : MainTermination
  /-- the tokio runtime could not be built. -/
  | runtimeBuildFailed : MainTermination
  /-- `TcpListener::bind` failed for one of the listeners. -/
  | bindFailed : MainTermination
  /-- a signal handler could not be registered. -/
  | signalRegisterFailed : MainTermination
  /-- SIGINT was received: the select loop breaks and main returns. -/
  | sigint : MainTermination
  /-- SIGTERM was received: the select loop breaks and main returns. -/
  | sigterm : MainTermination
deriving DecidableEq, Repr

/-- src/main.rs: the process exit code for each terminal event: every setup
failure calls `std::process::exit(1)`; either signal breaks the accept loop,
after which main shuts the runtime down within the 10 s grace period and
returns normally (exit code 0). -/
def mainExitCode : MainTermination → Nat
  | .configLoadFailed => 1
  | .notFoundLoadFailed => 1
  | .certstoreLoadFailed => 1
  | .runtimeBuildFailed => 1
  | .bindFailed => 1
  | .signalRegisterFailed => 1
  | .sigint => 0
  | .sigterm => 0

/-! ### Lemmas about the header scanner -/

theorem scanLoop_march (cb : Bool) (buf : List Nat) {l : List Nat} (rem : List Nat)
    (h13 : 13 ∉ l) :
    ∀ i ptr, scanLoop cb buf (l ++ rem) i ptr false
      = scanLoop cb buf rem (i + l.length) ptr false := by
  induction l with
  | nil => intro i ptr; simp
  | cons b l ih =>
    intro i ptr
    have hb : ¬(True ∧ b = 13) := by
      rintro ⟨-, rfl⟩; exact h13 (List.mem_cons_self _ _)
    have h13' : 13 ∉ l := fun h => h13 (List.mem_cons_of_mem _ h)
    rw [List.cons_append]
    simp only [scanLoop]
    rw [if_neg hb, if_neg (by rintro ⟨h, -⟩; cases h)]
    rw [ih h13' (i + 1) ptr]
    have e : i + 1 + l.length = i + (b :: l).length := by
      simp [List.length_cons]; omega
    rw [e]

theorem scanLoop_shift (cb : Bool) (pre buf2 : List Nat) (rem : List Nat) :
    ∀ i ptr (cr : Bool), (cr = true → 1 ≤ i) →
      scanLoop cb (pre ++ buf2) rem (pre.length + i) (pre.length + ptr) cr
        = scanLoop cb buf2 rem i ptr cr := by
  induction rem with
  | nil => intro i ptr cr _; rfl
  | cons b rem ih =>
    intro i ptr cr hcr
    simp only [scanLoop]
    by_cases h1 : cr = false ∧ b = 13
    · rw [if_pos h1, if_pos h1]
      have e : pre.length + i + 1 = pre.length + (i + 1) := by omega
      rw [e]
      exact ih (i + 1) ptr true (fun _ => by omega)
    · rw [if_neg h1, if_neg h1]
      by_cases h2 : cr = true ∧ b = 10
      · rw [if_pos h2, if_pos h2]
        have hi : 1 ≤ i := hcr h2.1
        have eline : ((pre ++ buf2).take (pre.length + i - 1)).drop (pre.length + ptr)
            = (buf2.take (i - 1)).drop ptr := by
          have e1 : pre.length + i - 1 = pre.length + (i - 1) := by omega
          rw [e1, List.take_append, List.drop_append]
        rw [eline]
        have hcont : scanLoop cb (pre ++ buf2) rem (pre.length + i + 1) (pre.length + i + 1) false
            = scanLoop cb buf2 rem (i + 1) (i + 1) false := by
          have e : pre.length + i + 1 = pre.length + (i + 1) := by omega
          rw [e]
          exact ih (i + 1) (i + 1) false (fun h => absurd h (by simp))
        by_cases hl6 : ((buf2.take (i - 1)).drop ptr).length < 6
        · rw [if_pos hl6, if_pos hl6]
        · rw [if_neg hl6, if_neg hl6]
          by_cases hhost : ((buf2.take (i - 1)).drop ptr).take 6 = hostMarker
          · rw [if_pos hhost, if_pos hhost]
          · rw [if_neg hhost, if_neg hhost]
            cases cb with
            | false => simpa using hcont
            | true =>
              simp only [if_true]
              by_cases hget : ((buf2.take (i - 1)).drop ptr).take 4 = getMarker
              · rw [if_pos hget, if_pos hget]
                by_cases hcp :
                    isCertbotPath (stripHttpSuffix (((buf2.take (i - 1)).drop ptr).drop 4))
                · rw [if_pos hcp, if_pos hcp]
                · rw [if_neg hcp, if_neg hcp]; exact hcont
              · rw [if_neg hget, if_neg hget]; exact hcont
      · rw [if_neg h2, if_neg h2]
        have e : pre.length + i + 1 = pre.length + (i + 1) := by omega
        rw [e]
        exact ih (i + 1) ptr false (fun h => absurd h (by simp))

/-- A buffer whose first CRLF-delimited line is `l` (no CR inside `l`) is
processed by first examining `l` as the code does, the remainder being
scanned only when `l` matches no branch. -/
theorem scanHeaders_line (cb : Bool) (l rest : List Nat) (h13 : 13 ∉ l) :
    scanHeaders cb (l ++ 13 :: 10 :: rest)
      = if l.length < 6 then .crashed
        else if l.take 6 = hostMarker then .host (truncAtColon (l.drop 6))
        else if cb = true ∧ l.take 4 = getMarker
            ∧ isCertbotPath (stripHttpSuffix (l.drop 4)) then .certbot
        else scanHeaders cb rest := by
  unfold scanHeaders
  rw [scanLoop_march cb _ (13 :: 10 :: rest) h13 0 0]
  rw [Nat.zero_add]
  have step1 : scanLoop cb (l ++ 13 :: 10 :: rest) (13 :: 10 :: rest) l.length 0 false
      = scanLoop cb (l ++ 13 :: 10 :: rest) (10 :: rest) (l.length + 1) 0 true := by
    simp [scanLoop]
  rw [step1]
  have hline : ((l ++ 13 :: 10 :: rest).take (l.length + 1 - 1)).drop 0 = l := by
    rw [Nat.add_sub_cancel, List.drop_zero, List.take_left]
  have hcont : scanLoop cb (l ++ 13 :: 10 :: rest) rest (l.length + 1 + 1) (l.length + 1 + 1) false
      = scanLoop cb rest rest 0 0 false := by
    have e : l ++ 13 :: 10 :: rest = (l ++ [13, 10]) ++ rest := by simp
    have e2 : l.length + 1 + 1 = (l ++ [13, 10]).length + 0 := by simp
    rw [e, e2]
    exact scanLoop_shift cb (l ++ [13, 10]) rest rest 0 0 false (fun h => absurd h (by simp))
  simp only [scanLoop]
  rw [if_neg (show ¬(true = false ∧ (10 : Nat) = 13) by rintro ⟨h, -⟩; cases h)]
  rw [if_pos (show True ∧ True from ⟨trivial, trivial⟩)]
  rw [hline]
  by_cases hl6 : l.length < 6
  · rw [if_pos hl6, if_pos hl6]
  · rw [if_neg hl6, if_neg hl6]
    by_cases hhost : l.take 6 = hostMarker
    · rw [if_pos hhost, if_pos hhost]
    · rw [if_neg hhost, if_neg hhost]
      cases cb with
      | false =>
        rw [if_neg (show ¬(false = true ∧ l.take 4 = getMarker
          ∧ isCertbotPath (stripHttpSuffix (l.drop 4))) by rintro ⟨h, -⟩; cases h)]
        simpa using hcont
      | true =>
        simp only [if_true]
        by_cases hget : l.take 4 = getMarker
        · rw [if_pos hget]
          by_cases hcp : isCertbotPath (stripHttpSuffix (l.drop 4))
          · rw [if_pos hcp, if_pos (show True ∧ l.take 4 = getMarker
              ∧ isCertbotPath (stripHttpSuffix (l.drop 4)) from ⟨trivial, hget, hcp⟩)]
          · rw [if_neg hcp, if_neg (show ¬(True ∧ l.take 4 = getMarker
              ∧ isCertbotPath (stripHttpSuffix (l.drop 4))) by rintro ⟨-, -, h⟩; exact hcp h)]
            exact hcont
        · rw [if_neg hget, if_neg (show ¬(True ∧ l.take 4 = getMarker
            ∧ isCertbotPath (stripHttpSuffix (l.drop 4))) by rintro ⟨-, h, -⟩; exact hget h)]
          exact hcont

/-- A line starting with the 6 `Host: ` bytes is at least 6 bytes long. -/
theorem not_lt_six_of_take_hostMarker {l : List Nat} (h : l.take 6 = hostMarker) :
    ¬ l.length < 6 := by
  intro hlt
  rw [List.take_of_length_le (by omega)] at h
  subst h
  simp [hostMarker, asciiBytes] at hlt

/-- A line starting with the 4 `GET ` bytes does not start with `Host: `. -/
theorem take6_ne_hostMarker_of_getMarker {l : List Nat} (h : l.take 4 = getMarker) :
    l.take 6 ≠ hostMarker := by
  intro h6
  have h4 : l.take 4 = hostMarker.take 4 := by
    rw [← h6, List.take_take]
    norm_num
  rw [h] at h4
  exact absurd h4 (by decide)

/-- First line is a Host line: the scan returns its port-truncated remainder
and never looks at the rest of the buffer. -/
theorem scanHeaders_host_line (cb : Bool) (l rest : List Nat) (h13 : 13 ∉ l)
    (hhost : l.take 6 = hostMarker) :
    scanHeaders cb (l ++ 13 :: 10 :: rest) = .host (truncAtColon (l.drop 6)) := by
  rw [scanHeaders_line cb l rest h13, if_neg (not_lt_six_of_take_hostMarker hhost),
    if_pos hhost]

/-- First line is a certbot GET line (certbot feature on): the scan
short-circuits to the certbot redirect, ignoring the rest of the buffer. -/
theorem scanHeaders_certbot_line (l rest : List Nat) (h13 : 13 ∉ l)
    (hlen : ¬ l.length < 6) (hget : l.take 4 = getMarker)
    (hcp : isCertbotPath (stripHttpSuffix (l.drop 4))) :
    scanHeaders true (l ++ 13 :: 10 :: rest) = .certbot := by
  rw [scanHeaders_line true l rest h13, if_neg hlen,
    if_neg (take6_ne_hostMarker_of_getMarker hget),
    if_pos ⟨rfl, hget, hcp⟩]

/-- First line matches nothing: the scan of the remainder decides. -/
theorem scanHeaders_skip_line (cb : Bool) (l rest : List Nat) (h13 : 13 ∉ l)
    (hlen : ¬ l.length < 6) (hhost : l.take 6 ≠ hostMarker)
    (hcb : ¬(cb = true ∧ l.take 4 = getMarker
      ∧ isCertbotPath (stripHttpSuffix (l.drop 4)))) :
    scanHeaders cb (l ++ 13 :: 10 :: rest) = scanHeaders cb rest := by
  rw [scanHeaders_line cb l rest h13, if_neg hlen, if_neg hhost, if_neg hcb]

/-- Any number of leading lines the scanner merely passes over leave the scan
of the remaining buffer unchanged. -/
theorem scanHeaders_skip_lines (cb : Bool) (pre : List (List Nat)) (tail : List Nat)
    (hpre : ∀ p ∈ pre, skippedLine cb p) :
    scanHeaders cb (joinLines pre tail) = scanHeaders cb tail := by
  induction pre with
  | nil => rfl
  | cons p pre ih =>
    have hp := hpre p (List.mem_cons_self p pre)
    have hrest : ∀ q ∈ pre, skippedLine cb q := fun q hq => hpre q (List.mem_cons_of_mem _ hq)
    show scanHeaders cb (p ++ 13 :: 10 :: joinLines pre tail) = _
    rw [scanHeaders_skip_line cb p (joinLines pre tail) hp.1 hp.2.1 hp.2.2.1 hp.2.2.2]
    exact ih hrest

/-- A header-shaped buffer is never empty: each line ends in CRLF and the tail
is only reached past them. -/
theorem joinLines_ne_nil (pre : List (List Nat)) (tail : List Nat) (ht : tail ≠ []) :
    joinLines pre tail ≠ [] := by
  cases pre with
  | nil => exact ht
  | cons p pre =>
    show p ++ 13 :: 10 :: joinLines pre tail ≠ []
    simp

/-- A buffer containing no CR byte never produces a line, whatever LF bytes
it contains: the scan falls off the end with `host = None`. -/
theorem scanHeaders_noCR (cb : Bool) (buf : List Nat) (h13 : 13 ∉ buf) :
    scanHeaders cb buf = .noHost := by
  unfold scanHeaders
  calc scanLoop cb buf buf 0 0 false
      = scanLoop cb buf (buf ++ []) 0 0 false := by rw [List.append_nil]
    _ = scanLoop cb buf [] (0 + buf.length) 0 false := scanLoop_march cb buf [] h13 0 0
    _ = .noHost := rfl

/-! ### Lemmas about the handler and the not-found responder -/

theorem handleHttp_scan (cb : Bool) (cfg : Config) (buf : List Nat) (hne : buf ≠ []) :
    handleHttp cb cfg (some buf)
      = match scanHeaders cb buf with
        | .crashed => .crashed
        | .certbot => .certbotRedirect cfg.certbot_hostname buf
        | .noHost => .abortNoHost
        | .host h =>
          match utf8Decode h with
          | none => .abortBadUtf8
          | some cs =>
            match cfg.hostnames.lookup (String.mk cs) with
            | none => .notFound
            | some target => .redirect target buf := by
  unfold handleHttp
  exact if_neg (by simpa [List.length_eq_zero] using hne)

theorem writeSteps_all_true (cs : List (List Nat)) :
    ∀ k, writeSteps cs (fun _ => true) k = (cs.flatten, true) := by
  induction cs with
  | nil => intro k; rfl
  | cons c cs ih =>
    intro k
    simp [writeSteps, ih (k + 1)]

theorem writeSteps_first_failure (cs : List (List Nat)) :
    ∀ (ok : Nat → Bool) k j, j < cs.length → ok (k + j) = false →
      (∀ m, m < j → ok (k + m) = true) →
      writeSteps cs ok k = ((cs.take j).flatten, false) := by
  induction cs with
  | nil => intro ok k j hj _ _; simp at hj
  | cons c cs ih =>
    intro ok k j hj hfail hok
    cases j with
    | zero =>
      simp only [Nat.add_zero] at hfail
      simp [writeSteps, hfail]
    | succ j =>
      have h0 : ok k = true := by simpa using hok 0 (Nat.succ_pos j)
      have hfail' : ok (k + 1 + j) = false := by
        have e : k + 1 + j = k + (j + 1) := by omega
        rw [e]; exact hfail
      have hok' : ∀ m, m < j → ok (k + 1 + m) = true := by
        intro m hm
        have e : k + 1 + m = k + (m + 1) := by omega
        rw [e]; exact hok (m + 1) (by omega)
      simp only [writeSteps, if_pos h0,
        ih ok (k + 1) j (by simpa using hj) hfail' hok']
      simp [List.take_cons]

theorem writeSteps_flush_irrelevant (cs : List (List Nat)) :
    ∀ (ok ok2 : Nat → Bool) k, (∀ m, m < cs.length → ok (k + m) = ok2 (k + m)) →
      (writeSteps cs ok k).1 = (writeSteps cs ok2 k).1 := by
  induction cs with
  | nil => intro ok ok2 k _; rfl
  | cons c cs ih =>
    intro ok ok2 k hagree
    have h0 : ok k = ok2 k := by simpa using hagree 0 (by simp)
    have hrest : ∀ m, m < cs.length → ok (k + 1 + m) = ok2 (k + 1 + m) := by
      intro m hm
      have e : k + 1 + m = k + (m + 1) := by omega
      rw [e]; exact hagree (m + 1) (by simpa using Nat.succ_lt_succ hm)
    simp only [writeSteps]
    rw [← h0]
    by_cases hk : ok k = true
    · rw [if_pos hk, if_pos hk]
      simp [ih ok ok2 (k + 1) hrest]
    · rw [if_neg hk, if_neg hk]

theorem truncAtColon_eq_takeWhile (l : List Nat) :
    truncAtColon l = l.takeWhile (fun b => b != 58) := by
  induction l with
  | nil => rfl
  | cons b l ih =>
    unfold truncAtColon at ih ⊢
    rw [List.findIdx?_cons]
    by_cases hb : b = 58
    · rw [if_pos (by simpa using hb)]
      subst hb
      simp
    · rw [if_neg (by simpa using hb), List.findIdx?_succ]
      cases hfi : List.findIdx? (fun x => x == 58) l with
      | none =>
        rw [hfi] at ih
        show b :: l = List.takeWhile (fun x => x != 58) (b :: l)
        rw [List.takeWhile_cons, if_pos (by simpa using hb)]
        exact congrArg (List.cons b) ih
      | some p =>
        rw [hfi] at ih
        show (b :: l).take (p + 1) = List.takeWhile (fun x => x != 58) (b :: l)
        rw [List.take_succ_cons, List.takeWhile_cons, if_pos (by simpa using hb)]
        exact congrArg (List.cons b) ih

/-! ### Sample configurations for concrete evaluations -/

/-- A configuration with an empty hostname map. -/
def cfgEmpty : Config :=
  { address := .v4 0 0 0 0, ports := [80], hostnames := [],
    certbot_hostname := "certbot-backend:80" }

/-- A configuration mapping one hostname to a backend. -/
def cfgMapped : Config :=
  { address := .v4 0 0 0 0, ports := [8080],
    hostnames := [("a.example.com", "127.0.0.1:9000")],
    certbot_hostname := "certbot-backend:80" }

/-! ### Claim theorems -/

/-- C1: evaluation of the Redirector's candidate loop at the failing input.
When resolution returns an IPv6 candidate and then an IPv4 candidate, the loop
chooses the IPv4 address: the code replaces an already-chosen IPv6 address by a
later IPv4 one, the opposite of the claimed (and comment-documented) IPv6
preference.  A single-family candidate list keeps the first candidate. -/
theorem c1_pickTarget_prefers_ipv4_over_ipv6 :
    pickTarget [⟨.v6 [0, 0, 0, 0, 0, 0, 0, 1], 9000⟩, ⟨.v4 127 0 0 1, 9000⟩]
        = some ⟨.v4 127 0 0 1, 9000⟩ ∧
      SocketAddr.is_ipv6 ⟨.v6 [0, 0, 0, 0, 0, 0, 0, 1], 9000⟩ = true ∧
      SocketAddr.is_ipv4 ⟨.v4 127 0 0 1, 9000⟩ = true ∧
      pickTarget [⟨.v4 127 0 0 1, 9000⟩, ⟨.v4 10 0 0 1, 9000⟩]
        = some ⟨.v4 127 0 0 1, 9000⟩ := by
  decide

/-- C2: evaluation of the scanner at the failing inputs.  The prefix tests are
not total: a CRLF-terminated line shorter than 6 bytes makes `&line[..6]` panic
(out-of-range slice index) instead of simply not matching, under both feature
settings; in particular a plain request whose headers end before any Host line
crashes on the empty line. -/
theorem c2_short_line_panics :
    scanHeaders false (asciiBytes "ab\r\n") = .crashed ∧
    scanHeaders true (asciiBytes "ab\r\n") = .crashed ∧
    handleHttp false cfgMapped (some (asciiBytes "GET / HTTP/1.1\r\n\r\n")) = .crashed := by
  decide

/-- C3: the exit-code part of the claim holds (bind failure gives 1, SIGINT
and SIGTERM give 0), but the binding contract does not: main.rs binds one
listener per `http_port`/`https_port` field of its own configuration view and
never iterates `Configuration.ports`; a port from `ports` (8080 here) has no
listener bound for it. -/
theorem c3_listener_bind_and_exit_codes :
    mainExitCode .bindFailed = 1 ∧
    mainExitCode .sigint = 0 ∧
    mainExitCode .sigterm = 0 ∧
    8080 ∈ cfgMapped.ports ∧
    mainBoundAddrs false ⟨.v4 0 0 0 0, 80, 443⟩ = [⟨.v4 0 0 0 0, 80⟩] ∧
    mainBoundAddrs true ⟨.v4 0 0 0 0, 80, 443⟩
      = [⟨.v4 0 0 0 0, 80⟩, ⟨.v4 0 0 0 0, 443⟩] ∧
    (⟨.v4 0 0 0 0, 8080⟩ : SocketAddr) ∉ mainBoundAddrs true ⟨.v4 0 0 0 0, 80, 443⟩ := by
  decide

/-- C4: evaluation of `handle_https` at the failing input.  Its body is empty:
it produces no outcome for any client bytes, while `handle_http` on the same
(decrypted) bytes would serve the not-found response — the two handlers are
not behaviorally equal. -/
theorem c4_handle_https_does_nothing :
    handleHttps cfgEmpty (asciiBytes "Host: unknown.example.com\r\n\r\n") = none ∧
    handleHttp false cfgEmpty (some (asciiBytes "Host: unknown.example.com\r\n\r\n"))
      = .notFound ∧
    handleHttps cfgEmpty (asciiBytes "Host: unknown.example.com\r\n\r\n")
      ≠ some (handleHttp false cfgEmpty
          (some (asciiBytes "Host: unknown.example.com\r\n\r\n"))) := by
  decide

/-- The C5 counterexample buffer: a Host line precedes the certbot GET line. -/
def c5Buf : List Nat :=
  asciiBytes "Host: a.example.com\r\nGET /.well-known/acme-challenge/x HTTP/1.1\r\n\r\n"

/-- C5 counterexample: a request whose GET line carries the certbot path but
whose Host line is scanned first is routed through the hostname map, not to
the certbot hostname: the Host branch breaks the scan before the GET line is
ever examined, so the redirect is not independent of the Host header. -/
theorem c5_counterexample_host_line_first :
    isCertbotPath (stripHttpSuffix
        ((asciiBytes "GET /.well-known/acme-challenge/x HTTP/1.1").drop 4)) ∧
      handleHttp true cfgMapped (some c5Buf) = .redirect "127.0.0.1:9000" c5Buf ∧
      handleHttp true cfgMapped (some c5Buf)
        ≠ .certbotRedirect cfgMapped.certbot_hostname c5Buf := by
  decide

/-- C5 (amended): with the certbot feature enabled, whenever the first
CRLF-terminated line of the buffer is the GET line (at least 6 bytes, no CR
inside) and its path, after the back-to-front `HTTP/x` suffix strip, has the
literal certbot prefix, the handler redirects the whole buffered read to the
configured certbot hostname, bypassing the hostname map and ignoring anything
— including Host lines — in the rest of the buffer. -/
theorem c5_certbot_redirect_when_get_line_first (cfg : Config) (l rest : List Nat)
    (h13 : 13 ∉ l) (hlen : ¬ l.length < 6) (hget : l.take 4 = getMarker)
    (hcp : isCertbotPath (stripHttpSuffix (l.drop 4))) :
    handleHttp true cfg (some (l ++ 13 :: 10 :: rest))
      = .certbotRedirect cfg.certbot_hostname (l ++ 13 :: 10 :: rest) := by
  rw [handleHttp_scan true cfg _ (by simp),
    scanHeaders_certbot_line l rest h13 hlen hget hcp]

/-- C5 witness: the amended theorem applied to a concrete request whose GET
line comes first and whose later Host line names a mapped hostname. -/
theorem c5_certbot_redirect_witness :
    handleHttp true cfgMapped
        (some (asciiBytes "GET /.well-known/acme-challenge/x HTTP/1.1"
          ++ 13 :: 10 :: asciiBytes "Host: a.example.com\r\n\r\n"))
      = .certbotRedirect "certbot-backend:80"
          (asciiBytes "GET /.well-known/acme-challenge/x HTTP/1.1"
            ++ 13 :: 10 :: asciiBytes "Host: a.example.com\r\n\r\n") :=
  c5_certbot_redirect_when_get_line_first cfgMapped _ _
    (by decide) (by decide) (by decide) (by decide)

/-- C6: the not-found responder writes exactly the claimed response.  With
every step succeeding, the bytes are the status line, the Date header, the
fixed server header, a Content-Length header whose value is the decimal byte
length of the payload, the Content-Type and Connection headers, the blank
line, then the payload, and the flush is attempted.  The first failing write
step aborts all remaining steps, leaving exactly the preceding chunks on the
wire.  The flush result never changes the bytes written.  And the responder is
invoked precisely when the extracted hostname is not a key of the map. -/
theorem c6_not_found_response :
    (∀ dateLine serverLine payload : List Nat,
        writeNotFoundFile dateLine serverLine payload (fun _ => true)
          = (notFoundResponseBytes dateLine serverLine payload, true)) ∧
    (∀ (dateLine serverLine payload : List Nat) (ok : Nat → Bool) (j : Nat),
        j < 9 → ok j = false → (∀ k, k < j → ok k = true) →
        writeNotFoundFile dateLine serverLine payload ok
          = (((notFoundChunks dateLine serverLine payload).take j).flatten, false)) ∧
    (∀ (dateLine serverLine payload : List Nat) (ok ok2 : Nat → Bool),
        (∀ k, k < 9 → ok k = ok2 k) →
        (writeNotFoundFile dateLine serverLine payload ok).1
          = (writeNotFoundFile dateLine serverLine payload ok2).1) ∧
    (∀ (cb : Bool) (cfg : Config) (l rest : List Nat) (cs : List Char),
        13 ∉ l → l.take 6 = hostMarker →
        utf8Decode (truncAtColon (l.drop 6)) = some cs →
        cfg.hostnames.lookup (String.mk cs) = none →
        handleHttp cb cfg (some (l ++ 13 :: 10 :: rest)) = .notFound) := by
  refine ⟨?_, ?_, ?_, ?_⟩
  · intro dl sl p
    unfold writeNotFoundFile notFoundResponseBytes
    exact writeSteps_all_true _ 0
  · intro dl sl p ok j hj hfail hok
    unfold writeNotFoundFile
    refine writeSteps_first_failure _ ok 0 j ?_ (by simpa using hfail) ?_
    · simp only [notFoundChunks, List.length_cons, List.length_nil]
      omega
    · intro m hm
      simpa using hok m hm
  · intro dl sl p ok ok2 hagree
    unfold writeNotFoundFile
    refine writeSteps_flush_irrelevant _ ok ok2 0 ?_
    intro m hm
    have hm9 : m < 9 := by
      simpa [notFoundChunks] using hm
    simpa using hagree m hm9
  · intro cb cfg l rest cs h13 hhost hdec hlook
    rw [handleHttp_scan cb cfg _ (by simp),
      scanHeaders_host_line cb l rest h13 hhost]
    simp [hdec, hlook]

/-- C6 witness: the theorem applied at a concrete date line, server line,
payload, failure oracles, and an unmapped hostname. -/
theorem c6_not_found_witness :
    writeNotFoundFile (asciiBytes "D\r\n") (asciiBytes "S\r\n") (asciiBytes "x")
        (fun _ => true)
      = (notFoundResponseBytes (asciiBytes "D\r\n") (asciiBytes "S\r\n")
          (asciiBytes "x"), true) ∧
    writeNotFoundFile (asciiBytes "D\r\n") (asciiBytes "S\r\n") (asciiBytes "x")
        (fun k => !(k == 2))
      = (((notFoundChunks (asciiBytes "D\r\n") (asciiBytes "S\r\n")
          (asciiBytes "x")).take 2).flatten, false) ∧
    (writeNotFoundFile (asciiBytes "D\r\n") (asciiBytes "S\r\n") (asciiBytes "x")
        (fun _ => true)).1
      = (writeNotFoundFile (asciiBytes "D\r\n") (asciiBytes "S\r\n") (asciiBytes "x")
          (fun k => !(k == 9))).1 ∧
    handleHttp false cfgMapped
        (some (asciiBytes "Host: nope.example.com" ++ 13 :: 10 :: [])) = .notFound :=
  ⟨c6_not_found_response.1 _ _ _,
   c6_not_found_response.2.1 _ _ _ _ 2 (by decide) (by decide) (by decide),
   c6_not_found_response.2.2.1 _ _ _ _ _ (by decide),
   c6_not_found_response.2.2.2 false cfgMapped _ [] ("nope.example.com".data)
     (by decide) (by decide) (by decide) (by decide)⟩

/-- C7: the certificate resolver returns the stored entry exactly when the
ClientHello carries an SNI server name that is a key of the startup-built
store; it returns `none` both when no SNI name is present and when the name is
unknown (the resolve is literally the pure store lookup, with no fallback). -/
theorem c7_resolve_is_pure_sni_lookup :
    (∀ store : List (String × Nat), resolveCert store none = none) ∧
    (∀ (store : List (String × Nat)) (name : String),
        resolveCert store (some name) = store.lookup name) ∧
    (∀ (store : List (String × Nat)) (sn : Option String) (entry : Nat),
        resolveCert store sn = some entry
          ↔ ∃ name, sn = some name ∧ store.lookup name = some entry) := by
  refine ⟨fun _ => rfl, fun _ _ => rfl, ?_⟩
  intro store sn entry
  cases sn with
  | none => simp [resolveCert]
  | some n => simp [resolveCert]

/-- C8: for every buffer in which the first line matching the 6 `Host: `
bytes is preceded only by lines the scanner passes over (each a CRLF line of
at least 6 bytes, with no CR inside, not `Host: `-matching, and not a certbot
hit — the request line of an ordinary request is such a line), the routed
hostname is that line's remainder truncated at the first colon (truncation at
the first colon is exactly `takeWhile (· != 58)`); the scan stops there, so
the rest of the buffer — whatever it contains, later Host lines included —
cannot change the extracted hostname; and the decision is the exact,
case-sensitive lookup of the decoded string in `Configuration.hostnames`. -/
theorem c8_host_header_routing :
    (∀ (cb : Bool) (pre : List (List Nat)) (l rest : List Nat),
        (∀ p ∈ pre, skippedLine cb p) → 13 ∉ l → l.take 6 = hostMarker →
        scanHeaders cb (joinLines pre (l ++ 13 :: 10 :: rest))
          = .host (truncAtColon (l.drop 6))) ∧
    (∀ hostname : List Nat,
        truncAtColon hostname = hostname.takeWhile (fun b => b != 58)) ∧
    (∀ (cb : Bool) (cfg : Config) (pre : List (List Nat)) (l rest : List Nat)
        (cs : List Char),
        (∀ p ∈ pre, skippedLine cb p) → 13 ∉ l → l.take 6 = hostMarker →
        utf8Decode (truncAtColon (l.drop 6)) = some cs →
        handleHttp cb cfg (some (joinLines pre (l ++ 13 :: 10 :: rest)))
          = match cfg.hostnames.lookup (String.mk cs) with
            | none => .notFound
            | some target => .redirect target (joinLines pre (l ++ 13 :: 10 :: rest))) := by
  refine ⟨?_, truncAtColon_eq_takeWhile, ?_⟩
  · intro cb pre l rest hpre h13 hhost
    rw [scanHeaders_skip_lines cb pre _ hpre]
    exact scanHeaders_host_line cb l rest h13 hhost
  · intro cb cfg pre l rest cs hpre h13 hhost hdec
    rw [handleHttp_scan cb cfg _ (joinLines_ne_nil pre _ (by simp)),
      scanHeaders_skip_lines cb pre _ hpre,
      scanHeaders_host_line cb l rest h13 hhost]
    simp [hdec]

/-- C8 witness: the theorem applied to an ordinary request — a `GET` request
line first (with the certbot feature on, so the GET branch is really
exercised and passed over), then the Host line with an explicit port, then
junk — against the mapped hostname. -/
theorem c8_host_header_routing_witness :
    scanHeaders true
        (joinLines [asciiBytes "GET / HTTP/1.1"]
          (asciiBytes "Host: a.example.com:8080" ++ 13 :: 10 :: asciiBytes "junk"))
        = .host (asciiBytes "a.example.com") ∧
      truncAtColon (asciiBytes "a.example.com:8080") = asciiBytes "a.example.com" ∧
      handleHttp true cfgMapped
          (some (joinLines [asciiBytes "GET / HTTP/1.1"]
            (asciiBytes "Host: a.example.com:8080" ++ 13 :: 10 :: asciiBytes "junk")))
        = .redirect "127.0.0.1:9000"
            (joinLines [asciiBytes "GET / HTTP/1.1"]
              (asciiBytes "Host: a.example.com:8080" ++ 13 :: 10 :: asciiBytes "junk")) :=
  ⟨(c8_host_header_routing.1 true [asciiBytes "GET / HTTP/1.1"] _ _
      (by decide) (by decide) (by decide)).trans (by decide),
   (c8_host_header_routing.2.1 (asciiBytes "a.example.com:8080")).trans (by decide),
   (c8_host_header_routing.2.2 true cfgMapped [asciiBytes "GET / HTTP/1.1"] _ _
      ("a.example.com".data) (by decide) (by decide) (by decide) (by decide)).trans
     (by decide)⟩

/-- C9: a zero-byte read aborts with nothing written; a buffer whose scan
finds no Host line aborts with nothing written; a Host value that is not
valid UTF-8 aborts with nothing written; and none of the abort outcomes
(including a read error and the scanner panic) puts any proxy-generated
response byte on the client socket. -/
theorem c9_aborts_without_response :
    (∀ (cb : Bool) (cfg : Config), handleHttp cb cfg (some []) = .abortEmpty) ∧
    (∀ (cb : Bool) (cfg : Config) (buf : List Nat), buf ≠ [] →
        scanHeaders cb buf = .noHost → handleHttp cb cfg (some buf) = .abortNoHost) ∧
    (∀ (cb : Bool) (cfg : Config) (buf h : List Nat), buf ≠ [] →
        scanHeaders cb buf = .host h → utf8Decode h = none →
        handleHttp cb cfg (some buf) = .abortBadUtf8) ∧
    (∀ (dateLine serverLine payload : List Nat) (ok : Nat → Bool) (o : HttpOutcome),
        o = .abortReadError ∨ o = .abortEmpty ∨ o = .abortNoHost
          ∨ o = .abortBadUtf8 ∨ o = .crashed →
        clientResponseBytes dateLine serverLine payload ok o = []) := by
  refine ⟨?_, ?_, ?_, ?_⟩
  · intro cb cfg; rfl
  · intro cb cfg buf hne hscan
    rw [handleHttp_scan cb cfg buf hne, hscan]
  · intro cb cfg buf h hne hscan hdec
    rw [handleHttp_scan cb cfg buf hne, hscan]
    simp [hdec]
  · rintro dl sl p ok o (rfl | rfl | rfl | rfl | rfl) <;> rfl

/-- C9 witness: the theorem applied at a zero-byte read, a request with no
CRLF-delimited Host line, and a Host value containing the invalid byte 255. -/
theorem c9_aborts_witness :
    handleHttp false cfgMapped (some []) = .abortEmpty ∧
    handleHttp false cfgMapped (some (asciiBytes "GET / HTTP/1.1")) = .abortNoHost ∧
    handleHttp false cfgMapped
        (some ([72, 111, 115, 116, 58, 32, 255] ++ 13 :: 10 :: [])) = .abortBadUtf8 ∧
    clientResponseBytes (asciiBytes "D") (asciiBytes "S") (asciiBytes "x")
        (fun _ => true) .abortNoHost = [] :=
  ⟨c9_aborts_without_response.1 false cfgMapped,
   c9_aborts_without_response.2.1 false cfgMapped _ (by decide) (by decide),
   c9_aborts_without_response.2.2.1 false cfgMapped _ [255] (by decide) (by decide)
     (by decide),
   c9_aborts_without_response.2.2.2 _ _ _ _ _ (Or.inr (Or.inr (Or.inl rfl)))⟩

/-- C10: a lone LF with the carriage-return flag down is skipped without
ending a line; a CR-CR-LF sequence entered with the flag down is skipped
whole — the second CR resets the flag so the LF ends no line; a buffer with
no CR at all (so delimited only by lone LFs) yields no line at all; and a
buffer whose headers are delimited only by CR-CR-LF is never examined for
the Host or GET markers (its Host lines are not found). -/
theorem c10_line_boundaries_strict_crlf :
    (∀ (cb : Bool) (buf rem : List Nat) (i ptr : Nat),
        scanLoop cb buf (10 :: rem) i ptr false
          = scanLoop cb buf rem (i + 1) ptr false) ∧
    (∀ (cb : Bool) (buf rem : List Nat) (i ptr : Nat),
        scanLoop cb buf (13 :: 13 :: 10 :: rem) i ptr false
          = scanLoop cb buf rem (i + 3) ptr false) ∧
    (∀ (cb : Bool) (buf : List Nat), 13 ∉ buf → scanHeaders cb buf = .noHost) ∧
    scanHeaders true (asciiBytes "Host: a.example.com\r\r\nGET /x HTTP/1.1\r\r\n")
      = .noHost := by
  refine ⟨?_, ?_, scanHeaders_noCR, by decide⟩
  · intro cb buf rem i ptr
    simp [scanLoop]
  · intro cb buf rem i ptr
    have s1 : scanLoop cb buf (13 :: 13 :: 10 :: rem) i ptr false
        = scanLoop cb buf (13 :: 10 :: rem) (i + 1) ptr true := by
      simp [scanLoop]
    have s2 : scanLoop cb buf (13 :: 10 :: rem) (i + 1) ptr true
        = scanLoop cb buf (10 :: rem) (i + 2) ptr false := by
      simp [scanLoop]
    have s3 : scanLoop cb buf (10 :: rem) (i + 2) ptr false
        = scanLoop cb buf rem (i + 3) ptr false := by
      simp [scanLoop]
    exact s1.trans (s2.trans s3)

/-- C10 witness: a buffer delimited only by lone LFs contains Host lines but
the scan finds none of them. -/
theorem c10_crlf_witness :
    scanHeaders true (asciiBytes "Host: a.example.com\nHost: b.example.com\n")
      = .noHost :=
  c10_line_boundaries_strict_crlf.2.2.1 true _ (by decide)

end RustProxy
